import Mathlib

/-!
dynalist-go: the request and response contract of `api_v1.go`

A shallow embedding of the Go package `dynalist` (file `api_v1.go`): the
struct declarations with their struct tags exactly as written in the source,
the part of `reflect.StructTag` and `encoding/json` that turns those tags
into wire keys, the five endpoint methods over an explicit transport, the
rate-limit lookups and the constructor `New`.

JSON is modelled at the level of values (an object is its ordered list of
members, a string is a Unicode text). A Go string is a sequence of bytes
(`GoString`); it becomes a JSON text as `encoding/json` does it, every byte
that is not part of a valid UTF-8 sequence becoming U+FFFD. Go `int` and
`time.Duration` are `Int`; a slice that is only read is `Option (List _)`
(`none` is the nil slice), a slice that is decoded into is a `Slice`, which
also keeps the elements of its backing array beyond its length; a pointer
that may legally be nil is `Option _`.
-/

namespace Dynalist

/-! ## JSON values -/

/-- A JSON value. `num` is an integer literal, `real` a number literal that
has a fraction or an exponent (kept as text). -/
inductive JSON where
  | null
  | bool (b : Bool)
  | num (n : Int)
  | real (text : String)
  | str (s : String)
  | arr (xs : List JSON)
  | obj (kvs : List (String × JSON))

/-- The member names of a JSON object in order (empty for other values). -/
def JSON.keys : JSON → List String
  | .obj kvs => kvs.map Prod.fst
  | _ => []

/-- The value of the first member named `k` of a JSON object. -/
def JSON.get? (k : String) : JSON → Option JSON
  | .obj kvs => (kvs.find? (fun kv => kv.1 == k)).map Prod.snd
  | _ => none

/-! ## Go strings -/

/-- A Go `string`: a sequence of bytes, not necessarily valid UTF-8. -/
abbrev GoString := List UInt8

/-- The UTF-8 bytes of a rune (`utf8.AppendRune`). -/
def encodeRune (c : Char) : List UInt8 :=
  if c.toNat < 128 then [UInt8.ofNat c.toNat]
  else if c.toNat < 2048 then
    [UInt8.ofNat (192 + c.toNat / 64), UInt8.ofNat (128 + c.toNat % 64)]
  else if c.toNat < 65536 then
    [UInt8.ofNat (224 + c.toNat / 4096), UInt8.ofNat (128 + c.toNat / 64 % 64),
     UInt8.ofNat (128 + c.toNat % 64)]
  else
    [UInt8.ofNat (240 + c.toNat / 262144), UInt8.ofNat (128 + c.toNat / 4096 % 64),
     UInt8.ofNat (128 + c.toNat / 64 % 64), UInt8.ofNat (128 + c.toNat % 64)]

/-- The Go string holding a text: its UTF-8 encoding. -/
def utf8 (s : String) : GoString := s.data.flatMap encodeRune

/-- The replacement rune U+FFFD (`utf8.RuneError`). -/
def RuneError : Char := Char.ofNat 65533

/-- Lowest second byte accepted after the first byte `p0`. -/
def acceptLo (p0 : Nat) : Nat := if p0 = 224 then 160 else if p0 = 240 then 144 else 128
/-- Highest second byte accepted after the first byte `p0`. -/
def acceptHi (p0 : Nat) : Nat := if p0 = 237 then 159 else if p0 = 244 then 143 else 191

/-- A continuation byte. -/
def isCont (b : UInt8) : Bool := decide (128 ≤ b.toNat ∧ b.toNat ≤ 191)
/-- The second byte `b` is accepted after the first byte `p0`. -/
def accepts (p0 : UInt8) (b : UInt8) : Bool :=
  decide (acceptLo p0.toNat ≤ b.toNat ∧ b.toNat ≤ acceptHi p0.toNat)

/-- Go `utf8.DecodeRune` on the non-empty input `p0 :: rest`: the rune and
its width; an invalid or truncated sequence gives U+FFFD and width 1. -/
def DecodeRune (p0 : UInt8) (rest : List UInt8) : Char × Nat :=
  if p0.toNat < 128 then (Char.ofNat p0.toNat, 1)
  else if p0.toNat < 194 ∨ 244 < p0.toNat then (RuneError, 1)
  else if p0.toNat < 224 then
    match rest with
    | b1 :: _ =>
      if accepts p0 b1 then (Char.ofNat (p0.toNat % 32 * 64 + b1.toNat % 64), 2)
      else (RuneError, 1)
    | _ => (RuneError, 1)
  else if p0.toNat < 240 then
    match rest with
    | b1 :: b2 :: _ =>
      if accepts p0 b1 && isCont b2 then
        (Char.ofNat (p0.toNat % 16 * 4096 + b1.toNat % 64 * 64 + b2.toNat % 64), 3)
      else (RuneError, 1)
    | _ => (RuneError, 1)
  else
    match rest with
    | b1 :: b2 :: b3 :: _ =>
      if accepts p0 b1 && isCont b2 && isCont b3 then
        (Char.ofNat (p0.toNat % 8 * 262144 + b1.toNat % 64 * 4096 + b2.toNat % 64 * 64
          + b3.toNat % 64), 4)
      else (RuneError, 1)
    | _ => (RuneError, 1)

/-- The runes of a byte sequence, read with `DecodeRune` after skipping
`skip` bytes (the rest of the rune just read). -/
def runesFrom : Nat → List UInt8 → List Char
  | _, [] => []
  | skip + 1, _ :: rest => runesFrom skip rest
  | 0, p0 :: rest => (DecodeRune p0 rest).1 :: runesFrom ((DecodeRune p0 rest).2 - 1) rest

/-- The JSON text `encoding/json` writes for a Go string: its runes, with
U+FFFD for every byte that is not part of a valid UTF-8 sequence. -/
def text (s : GoString) : String := String.mk (runesFrom 0 s)

/-! ## Struct tags (`reflect.StructTag.Lookup`) -/

/-- A struct field as declared in the source: Go name and raw tag text. -/
structure StructField where
  name : String
  tag : String
  deriving DecidableEq, Repr

/-- Leading spaces are skipped before each `key:"value"` pair. -/
def skipSpaces : List Char → List Char
  | ' ' :: cs => skipSpaces cs
  | cs => cs

/-- Characters allowed in a tag key: above space, not `:`, not `"`, not DEL. -/
def isKeyChar (c : Char) : Bool :=
  decide (32 < c.toNat) && c != ':' && c != '"' && c.toNat != 127

/-- Scan a tag key up to the first character that cannot belong to it. -/
def scanKey : List Char → List Char × List Char
  | [] => ([], [])
  | c :: cs =>
    if isKeyChar c then
      let r := scanKey cs
      (c :: r.1, r.2)
    else ([], c :: cs)

/-- Scan a quoted value after its opening quote; `none` when the closing
quote is missing. A backslash takes the next character with it. -/
def scanQuoted : List Char → Option (List Char × List Char)
  | [] => none
  | '"' :: cs => some ([], cs)
  | '\\' :: [] => none
  | '\\' :: c :: cs =>
    match scanQuoted cs with
    | none => none
    | some (q, r) => some ('\\' :: c :: q, r)
  | c :: cs =>
    match scanQuoted cs with
    | none => none
    | some (q, r) => some (c :: q, r)

/-- The text of a quoted tag value (`strconv.Unquote`): the one-character
escapes are interpreted; a numeric escape or a line break is reported as a
failure. The tags of this package contain no backslash. -/
def unquote : List Char → Option (List Char)
  | [] => some []
  | '\\' :: 'a' :: cs => (unquote cs).map (fun r => Char.ofNat 7 :: r)
  | '\\' :: 'b' :: cs => (unquote cs).map (fun r => Char.ofNat 8 :: r)
  | '\\' :: 'f' :: cs => (unquote cs).map (fun r => Char.ofNat 12 :: r)
  | '\\' :: 'n' :: cs => (unquote cs).map (fun r => '\n' :: r)
  | '\\' :: 'r' :: cs => (unquote cs).map (fun r => '\r' :: r)
  | '\\' :: 't' :: cs => (unquote cs).map (fun r => '\t' :: r)
  | '\\' :: 'v' :: cs => (unquote cs).map (fun r => Char.ofNat 11 :: r)
  | '\\' :: '\\' :: cs => (unquote cs).map (fun r => '\\' :: r)
  | '\\' :: '"' :: cs => (unquote cs).map (fun r => '"' :: r)
  | '\\' :: _ => none
  | '\n' :: _ => none
  | c :: cs => (unquote cs).map (fun r => c :: r)

/-- The loop of `StructTag.Lookup`: walk over the `key:"value"` pairs and
return the value of the first pair whose key is `key`; stop with `none` at
the first syntax error. `fuel` bounds the number of pairs. -/
def lookupLoop (key : List Char) : Nat → List Char → Option (List Char)
  | 0, _ => none
  | fuel + 1, tag =>
    match scanKey (skipSpaces tag) with
    | ([], _) => none
    | (name, ':' :: '"' :: more) =>
      match scanQuoted more with
      | none => none
      | some (q, rest) => if name = key then unquote q else lookupLoop key fuel rest
    | _ => none

/-- The value a struct tag associates with `key`, if any. -/
def StructTag.Lookup (tag : String) (key : String) : Option String :=
  (lookupLoop key.data (tag.data.length + 1) tag.data).map String.mk

/-- The value for `key`, or the empty string (`StructTag.Get`). -/
def StructTag.Get (tag : String) (key : String) : String :=
  (StructTag.Lookup tag key).getD ""

/-! ## Field naming of `encoding/json` -/

/-- Split a `json` tag value at its first comma (`parseTag`). -/
def parseTag (tag : List Char) : List Char × List Char :=
  match tag.span (fun c => c != ',') with
  | (name, []) => (name, [])
  | (name, _ :: opts) => (name, opts)

/-- Whether the comma-separated option list contains `opt`. -/
def optsContains (opts : List Char) (opt : List Char) : Bool :=
  (opts.splitOn ',').contains opt

/-- Punctuation accepted in a JSON name given by a tag. -/
def tagPunct : List Char := "!#$%&()*+-./:;<=>?@[]^_\x7b|\x7d~ ".data

/-- A tag name is usable when it is non-empty and made of letters, digits
and the accepted punctuation (`isValidTag`; letters and digits are ASCII
here, as are all tags of this package). -/
def isValidTag (s : List Char) : Bool :=
  !s.isEmpty && s.all (fun c => c.isAlphanum || tagPunct.contains c)

/-- What `encoding/json` derives from a struct field. -/
structure JsonField where
  name : String
  omitEmpty : Bool
  deriving DecidableEq, Repr

/-- Whether a Go identifier is exported (starts with an upper-case letter). -/
def isExported (name : String) : Bool :=
  match name.data with
  | [] => false
  | c :: _ => c.isUpper

/-- The JSON field of a struct field: `none` when the field is unexported
or tagged `json:"-"`; the tag name when valid, else the Go name. -/
def jsonField (f : StructField) : Option JsonField :=
  if !isExported f.name then none
  else
    let tag := StructTag.Get f.tag "json"
    if tag = "-" then none
    else
      let p := parseTag tag.data
      let name := if isValidTag p.1 then String.mk p.1 else f.name
      some ⟨name, optsContains p.2 "omitempty".data⟩

/-- The members a struct contributes to its JSON object: every field that
has a JSON name, unless it is `omitempty` and its value is empty. Each value
comes with the flag saying whether it is the empty value of its type. -/
def encodeStruct : List StructField → List (JSON × Bool) → List (String × JSON)
  | f :: fs, (v, empty) :: vs =>
    match jsonField f with
    | none => encodeStruct fs vs
    | some jf =>
      if jf.omitEmpty && empty then encodeStruct fs vs
      else (jf.name, v) :: encodeStruct fs vs
  | _, _ => []

/-! ## Domain model -/

/-- Go `type Action string`. -/
abbrev Action := GoString

/-- Go `type Type string`. -/
abbrev Type' := GoString

def ActionInsert : Action := utf8 "action"
def ActionEdit : Action := utf8 "edit"
def ActionMove : Action := utf8 "move"
def ActionDelete : Action := utf8 "delete"

def TypeDocument : Type' := utf8 "document"
def TypeFolder : Type' := utf8 "folder"

/-- Go `type Change struct`. The zero value of a field is what Go has when
the field was never assigned. -/
structure Change where
  Action : Action := []
  Index : Int := 0
  NodeID : GoString := []
  ParentID : GoString := []
  Content : GoString := []
  Type' : Type' := []
  FileID : GoString := []
  Title : GoString := []
  Note : GoString := []
  Checked : Bool := false
  deriving DecidableEq, Repr

/-- The field declarations of `Change`, tags as in the source. -/
def Change.fields : List StructField :=
  [ ⟨"Action", "json:\"action\""⟩,
    ⟨"Index", "json:\"index,omitempty\""⟩,
    ⟨"NodeID", "json:\"node_id,omitempty\""⟩,
    ⟨"ParentID", "json:\"parent_id,omitempty\""⟩,
    ⟨"Content", "json:\"content,omitempty\""⟩,
    ⟨"Type", "json:\"type,omitempty\""⟩,
    ⟨"FileID", "json:\"file_id,omitempty\""⟩,
    ⟨"Title", "json:\"title,omitempty\""⟩,
    ⟨"Note", "json:\"note,omitempty\""⟩,
    ⟨"Checked", "json:\"checked,omitempty\""⟩ ]

/-- The field values of a `Change` as JSON, each with its emptiness flag. -/
def Change.values (c : Change) : List (JSON × Bool) :=
  [ (.str (text c.Action), c.Action == []),
    (.num c.Index, c.Index == 0),
    (.str (text c.NodeID), c.NodeID == []),
    (.str (text c.ParentID), c.ParentID == []),
    (.str (text c.Content), c.Content == []),
    (.str (text c.Type'), c.Type' == []),
    (.str (text c.FileID), c.FileID == []),
    (.str (text c.Title), c.Title == []),
    (.str (text c.Note), c.Note == []),
    (.bool c.Checked, c.Checked == false) ]

/-- The members of the JSON object of a `Change`. -/
def Change.members (c : Change) : List (String × JSON) :=
  encodeStruct Change.fields c.values

/-- The JSON serialization of a `Change` (`json.Marshal`). -/
def Change.toJSON (c : Change) : JSON := .obj c.members

/-- Go `func NewChange(action Action) *Change`. -/
def NewChange (action : Action) : Change := { Action := action }

/-! ## Decoding (`json.Unmarshal`) -/

/-- Errors. `text` is an error made with `errors.New` or reported by a
library with that message; `badJSON` is a body that does not start with a
complete JSON value; `unmarshalType` is a JSON value of a kind the Go
destination cannot hold. -/
inductive Error where
  | text (msg : String)
  | badJSON
  | unmarshalType (jsonKind : String) (goType : String)
  deriving DecidableEq, Repr

/-- The kind of a JSON value, as named in type errors. -/
def JSON.kind : JSON → String
  | .null => "null"
  | .bool _ => "bool"
  | .num _ => "number"
  | .real _ => "number"
  | .str _ => "string"
  | .arr _ => "array"
  | .obj _ => "object"

/-- Store a JSON value into a Go `string`: the UTF-8 bytes of a string are
stored, `null` leaves the destination alone, anything else is a type
error. -/
def decodeString (v : JSON) (old : GoString) : GoString × Option Error :=
  match v with
  | .str s => (utf8 s, none)
  | .null => (old, none)
  | _ => (old, some (.unmarshalType v.kind "string"))

/-- Store a JSON value into a Go `bool`. -/
def decodeBool (v : JSON) (old : Bool) : Bool × Option Error :=
  match v with
  | .bool b => (b, none)
  | .null => (old, none)
  | _ => (old, some (.unmarshalType v.kind "bool"))

/-- Store a JSON value into a Go `int` (64 bits): an integer literal in
range is stored; a literal with fraction or exponent, or out of range, is a
type error. -/
def decodeInt (v : JSON) (old : Int) : Int × Option Error :=
  match v with
  | .num n =>
    if -(2 ^ 63) ≤ n ∧ n < 2 ^ 63 then (n, none)
    else (old, some (.unmarshalType "number" "int"))
  | .null => (old, none)
  | _ => (old, some (.unmarshalType v.kind "int"))

/-- The first error of a sequence of outcomes. -/
def firstError : List (Option Error) → Option Error
  | [] => none
  | some e :: _ => some e
  | none :: es => firstError es

/-- A Go slice that is decoded into: its elements (`none` is the nil
slice) and the elements of its backing array beyond its length that were
written earlier (all further ones are zero). -/
structure Slice (α : Type) where
  items : Option (List α) := none
  spare : List α := []
  deriving DecidableEq, Repr

/-- Number of elements of a slice. -/
def Slice.len {α : Type} (s : Slice α) : Nat := (s.items.getD []).length

/-- Decode the elements of an array in order: element `i` is decoded into
the `i`-th element of the backing array, or into a zero element when the
backing array holds none. -/
def decodeElems {α : Type} (elem : JSON → α → α × Option Error) (zero : α) :
    List JSON → List α → List (α × Option Error)
  | [], _ => []
  | x :: xs, [] => elem x zero :: decodeElems elem zero xs []
  | x :: xs, b :: bs => elem x b :: decodeElems elem zero xs bs

/-- Store a JSON value into a Go slice. An empty array gives a new empty
slice. Any other array is decoded element by element into the elements the
backing array already holds (those below and beyond the old length), the
length becomes that of the array and what lies beyond stays in the backing
array. `null` makes the slice nil; anything else is a type error. -/
def decodeSlice {α : Type} (elem : JSON → α → α × Option Error) (zero : α)
    (v : JSON) (old : Slice α) : Slice α × Option Error :=
  match v with
  | .arr [] => (⟨some [], []⟩, none)
  | .arr xs =>
    (⟨some ((decodeElems elem zero xs (old.items.getD [] ++ old.spare)).map Prod.fst),
      (old.items.getD [] ++ old.spare).drop xs.length⟩,
     firstError ((decodeElems elem zero xs (old.items.getD [] ++ old.spare)).map Prod.snd))
  | .null => (⟨none, []⟩, none)
  | _ => (old, some (.unmarshalType v.kind "slice"))

/-- Fold a rune for case-insensitive key matching: ASCII letters to upper
case, and the two non-ASCII runes whose fold orbit contains an ASCII letter
(long s, Kelvin sign) to that letter. -/
def foldRune (c : Char) : Char :=
  if c.isLower then c.toUpper
  else if c = Char.ofNat 383 then 'S'
  else if c = Char.ofNat 8490 then 'K'
  else c

/-- The folded form of a key. -/
def foldName (s : String) : List Char := s.data.map foldRune

/-- Index of the first element satisfying `p`. -/
def findIndex {α : Type} (p : α → Bool) : List α → Option Nat
  | [] => none
  | a :: as => if p a then some 0 else (findIndex p as).map (· + 1)

/-- The JSON names of the declared fields (`none` for an ignored field). -/
def jsonNames (fields : List StructField) : List (Option String) :=
  fields.map (fun f => (jsonField f).map JsonField.name)

/-- The field an object key names: the field whose JSON name is exactly
the key, else the first field whose JSON name equals it up to case. -/
def resolve (fields : List StructField) (key : String) : Option Nat :=
  match findIndex (fun n => n == some key) (jsonNames fields) with
  | some i => some i
  | none =>
    findIndex (fun n => match n with
      | some n => foldName n == foldName key
      | none => false) (jsonNames fields)

/-- One member of an object decoded into a struct: a key naming no field
is skipped; the first error is kept and decoding goes on. -/
def decodeMember {σ : Type} (fields : List StructField)
    (store : Nat → JSON → σ → σ × Option Error)
    (st : σ × Option Error) (kv : String × JSON) : σ × Option Error :=
  match resolve fields kv.1 with
  | none => st
  | some i => ((store i kv.2 st.1).1, st.2.orElse (fun _ => (store i kv.2 st.1).2))

/-- Decode a JSON value into a struct: an object is taken member by member
in order, `null` leaves the struct alone, anything else is a type error. -/
def decodeStruct {σ : Type} (fields : List StructField)
    (store : Nat → JSON → σ → σ × Option Error) (v : JSON) (s : σ) : σ × Option Error :=
  match v with
  | .obj kvs => kvs.foldl (decodeMember fields store) (s, none)
  | .null => (s, none)
  | _ => (s, some (.unmarshalType v.kind "struct"))

/-- Store the value of the `i`-th declared field of a `Change`. -/
def Change.store (i : Nat) (v : JSON) (c : Change) : Change × Option Error :=
  match i with
  | 0 => ({ c with Action := (decodeString v c.Action).1 }, (decodeString v c.Action).2)
  | 1 => ({ c with Index := (decodeInt v c.Index).1 }, (decodeInt v c.Index).2)
  | 2 => ({ c with NodeID := (decodeString v c.NodeID).1 }, (decodeString v c.NodeID).2)
  | 3 => ({ c with ParentID := (decodeString v c.ParentID).1 }, (decodeString v c.ParentID).2)
  | 4 => ({ c with Content := (decodeString v c.Content).1 }, (decodeString v c.Content).2)
  | 5 => ({ c with Type' := (decodeString v c.Type').1 }, (decodeString v c.Type').2)
  | 6 => ({ c with FileID := (decodeString v c.FileID).1 }, (decodeString v c.FileID).2)
  | 7 => ({ c with Title := (decodeString v c.Title).1 }, (decodeString v c.Title).2)
  | 8 => ({ c with Note := (decodeString v c.Note).1 }, (decodeString v c.Note).2)
  | 9 => ({ c with Checked := (decodeBool v c.Checked).1 }, (decodeBool v c.Checked).2)
  | _ => (c, none)

/-- Decode a JSON value into a `Change` (`json.Unmarshal(data, &c)`). -/
def Change.decode (v : JSON) (c : Change) : Change × Option Error :=
  decodeStruct Change.fields Change.store v c

/-- Go `type Permission int`. -/
abbrev Permission := Int

def PermissionNoAccess : Permission := 0
def PermissionReadOnly : Permission := 1
def PermissionEditRights : Permission := 2
def PermissionManage : Permission := 3
def PermissionOwner : Permission := 4

/-- Go `type File struct`. -/
structure File where
  ID : GoString := []
  Title : GoString := []
  Type' : Type' := []
  Permission : Permission := 0
  Collapsed : Bool := false
  Children : Slice GoString := {}
  deriving DecidableEq, Repr

/-- The field declarations of `File`, tags as in the source. -/
def File.fields : List StructField :=
  [ ⟨"ID", "json:\"id\""⟩,
    ⟨"Title", "json:\"title\""⟩,
    ⟨"Type", "json:\"type\""⟩,
    ⟨"Permission", "json:\"permission\""⟩,
    ⟨"Collapsed", "json:\"collapsed,omitempty\""⟩,
    ⟨"Children", "json:\"children,omitempty\""⟩ ]

/-- Store the value of the `i`-th declared field of a `File`. -/
def File.store (i : Nat) (v : JSON) (f : File) : File × Option Error :=
  match i with
  | 0 => ({ f with ID := (decodeString v f.ID).1 }, (decodeString v f.ID).2)
  | 1 => ({ f with Title := (decodeString v f.Title).1 }, (decodeString v f.Title).2)
  | 2 => ({ f with Type' := (decodeString v f.Type').1 }, (decodeString v f.Type').2)
  | 3 => ({ f with Permission := (decodeInt v f.Permission).1 }, (decodeInt v f.Permission).2)
  | 4 => ({ f with Collapsed := (decodeBool v f.Collapsed).1 }, (decodeBool v f.Collapsed).2)
  | 5 => ({ f with Children := (decodeSlice decodeString [] v f.Children).1 },
          (decodeSlice decodeString [] v f.Children).2)
  | _ => (f, none)

/-- Decode a JSON value into a `File`. -/
def File.decode (v : JSON) (f : File) : File × Option Error :=
  decodeStruct File.fields File.store v f

/-- Go `type Node struct`. -/
structure Node where
  ID : GoString := []
  Content : GoString := []
  Note : GoString := []
  Checked : Bool := false
  Collapsed : Bool := false
  Parent : GoString := []
  Children : Slice GoString := {}
  deriving DecidableEq, Repr

/-- The field declarations of `Node`, tags as in the source. -/
def Node.fields : List StructField :=
  [ ⟨"ID", "json:\"id\""⟩,
    ⟨"Content", "json:\"content\""⟩,
    ⟨"Note", "json:\"note,omitempty\""⟩,
    ⟨"Checked", "json:\"checked,omitempty\""⟩,
    ⟨"Collapsed", "json:\"collapsed,omitempty\""⟩,
    ⟨"Parent", "json:\"parent,omitempty\""⟩,
    ⟨"Children", "json:\"children,omitempty\""⟩ ]

/-- Store the value of the `i`-th declared field of a `Node`. -/
def Node.store (i : Nat) (v : JSON) (n : Node) : Node × Option Error :=
  match i with
  | 0 => ({ n with ID := (decodeString v n.ID).1 }, (decodeString v n.ID).2)
  | 1 => ({ n with Content := (decodeString v n.Content).1 }, (decodeString v n.Content).2)
  | 2 => ({ n with Note := (decodeString v n.Note).1 }, (decodeString v n.Note).2)
  | 3 => ({ n with Checked := (decodeBool v n.Checked).1 }, (decodeBool v n.Checked).2)
  | 4 => ({ n with Collapsed := (decodeBool v n.Collapsed).1 }, (decodeBool v n.Collapsed).2)
  | 5 => ({ n with Parent := (decodeString v n.Parent).1 }, (decodeString v n.Parent).2)
  | 6 => ({ n with Children := (decodeSlice decodeString [] v n.Children).1 },
          (decodeSlice decodeString [] v n.Children).2)
  | _ => (n, none)

/-- Decode a JSON value into a `Node`. -/
def Node.decode (v : JSON) (n : Node) : Node × Option Error :=
  decodeStruct Node.fields Node.store v n

/-- Go `type Code string`. -/
abbrev Code := GoString

def CodeOK : Code := utf8 "Ok"
/-- Go `type Response struct`. -/
structure Response where
  Code : Code := []
  Msg : GoString := []
  RootFileID : GoString := []
  Files : Slice File := {}
  Results : Slice Bool := {}
  Title : GoString := []
  Nodes : Slice Node := {}
  deriving DecidableEq, Repr

/-- The field declarations of `Response`, tags as in the source: the tags
of `Results`, `Title` and `Nodes` have no closing quote. -/
def Response.fields : List StructField :=
  [ ⟨"Code", "json:\"_code\""⟩,
    ⟨"Msg", "json:\"_msg\""⟩,
    ⟨"RootFileID", "json:\"root_file_id,omitempty\""⟩,
    ⟨"Files", "json:\"files,omitempty\""⟩,
    ⟨"Results", "json:\"results,omitempty"⟩,
    ⟨"Title", "json:\"title,omitempty"⟩,
    ⟨"Nodes", "json:\"nodes,omitempty"⟩ ]

/-- Store the value of the `i`-th declared field of a `Response`. -/
def Response.store (i : Nat) (v : JSON) (r : Response) : Response × Option Error :=
  match i with
  | 0 => ({ r with Code := (decodeString v r.Code).1 }, (decodeString v r.Code).2)
  | 1 => ({ r with Msg := (decodeString v r.Msg).1 }, (decodeString v r.Msg).2)
  | 2 => ({ r with RootFileID := (decodeString v r.RootFileID).1 },
          (decodeString v r.RootFileID).2)
  | 3 => ({ r with Files := (decodeSlice File.decode {} v r.Files).1 },
          (decodeSlice File.decode {} v r.Files).2)
  | 4 => ({ r with Results := (decodeSlice decodeBool false v r.Results).1 },
          (decodeSlice decodeBool false v r.Results).2)
  | 5 => ({ r with Title := (decodeString v r.Title).1 }, (decodeString v r.Title).2)
  | 6 => ({ r with Nodes := (decodeSlice Node.decode {} v r.Nodes).1 },
          (decodeSlice Node.decode {} v r.Nodes).2)
  | _ => (r, none)

/-- Decode a JSON value into a `Response` (`Decode(out)` in `post`). -/
def Response.decode (v : JSON) (r : Response) : Response × Option Error :=
  decodeStruct Response.fields Response.store v r

/-! ## Client, transport and endpoint methods -/

def baseurl : String := "https://dynalist.io/api/v1/"

/-- Go `type API struct`. The unexported `client` field is the handle to
the network, which the methods below receive as `Net`. -/
structure API where
  Token : GoString := []
  RateLimit : Int := 0
  BurstLimit : Int := 0
  deriving DecidableEq, Repr

/-- The field declarations of `API`, tags as in the source. -/
def API.fields : List StructField :=
  [ ⟨"Token", "json:\"token\""⟩,
    ⟨"RateLimit", "json:\"-\""⟩,
    ⟨"BurstLimit", "json:\"-\""⟩,
    ⟨"client", "json:\"-\""⟩ ]

/-- The JSON serialization of the client itself, the body of `FileList`.
The values of the three fields that are not serialized are placeholders. -/
def API.toJSON (api : API) : JSON :=
  .obj (encodeStruct API.fields
    [ (.str (text api.Token), api.Token == []), (.null, false),
      (.num api.BurstLimit, api.BurstLimit == 0), (.null, false) ])

/-- The environment: the value of a variable, if set. -/
abbrev Env := String → Option GoString

/-- Go `os.Getenv`: the value, or the empty string when unset. -/
def Getenv (env : Env) (key : String) : GoString := (env key).getD []

/-- An HTTP request as built by `post`. -/
structure Request where
  Method : String
  URL : String
  Header : List (String × String)
  Body : JSON

/-- What a JSON decoder finds at the start of a response body: a complete
JSON value, or nothing it can decode (a read error, the end of the input
or malformed text). -/
inductive Stream where
  | malformed
  | value (j : JSON)

/-- An HTTP response; `Body` may be nil. -/
structure HTTPResponse where
  Body : Option Stream

/-- The network as a given outcome: whether a request for a method and URL
can be built, and what sending a request gives. -/
structure Net where
  checkRequest : String → String → Option Error
  Do : Request → Except Error HTTPResponse

/-- Go `http.NewRequest`. -/
def NewRequest (net : Net) (method url : String) (body : JSON) : Except Error Request :=
  match net.checkRequest method url with
  | some e => .error e
  | none => .ok ⟨method, url, [], body⟩

/-- Go `Header.Set`. -/
def Request.setHeader (req : Request) (k v : String) : Request :=
  { req with Header := req.Header.filter (fun h => h.1 != k) ++ [(k, v)] }

/-- The effect of `post`: the destination, the error and the requests
handed to the HTTP client. -/
structure PostResult where
  out : Response
  err : Option Error
  sent : List Request

/-- Go `func (api *API) post(url string, in, out interface{}) error`.
`enc` is the outcome of `json.NewEncoder(b).Encode(in)`. -/
def API.post (net : Net) (url : String) (enc : Except Error JSON) (out : Response) :
    PostResult :=
  match enc with
  | .error e => ⟨out, some e, []⟩
  | .ok b =>
    match NewRequest net "POST" url b with
    | .error e => ⟨out, some e, []⟩
    | .ok req0 =>
      let req := (req0.setHeader "Content-Type" "application/json").setHeader
        "Accept" "application/json"
      match net.Do req with
      | .error e => ⟨out, some e, [req]⟩
      | .ok res =>
        match res.Body with
        | none => ⟨out, some (.text "no body in the response"), [req]⟩
        | some .malformed => ⟨out, some .badJSON, [req]⟩
        | some (.value j) => ⟨(Response.decode j out).1, (Response.decode j out).2, [req]⟩

/-- The effect of an endpoint method: the two return values, the receiver
after the call and the requests sent. -/
structure Call where
  res : Option Response
  err : Option Error
  api : API
  sent : List Request

/-- Go `func (api *API) FileList() (*Response, error)`. -/
def API.FileList (api : API) (net : Net) : Call :=
  let p := API.post net (baseurl ++ "file/list") (.ok api.toJSON) {}
  match p.err with
  | some e => ⟨none, some e, api, p.sent⟩
  | none => ⟨some p.out, none, api, p.sent⟩

/-- A `[]*Change` as JSON: a nil slice is `null`, a nil pointer is `null`. -/
def changesJSON (changes : Option (List (Option Change))) : JSON :=
  match changes with
  | none => .null
  | some cs => .arr (cs.map (fun c => match c with
      | none => .null
      | some c => c.toJSON))

/-- Go `len` of a slice that is only read. -/
def len {α : Type} (s : Option (List α)) : Nat := (s.getD []).length

/-- The parameter struct of `FileEdit`. -/
def FileEdit.fields : List StructField :=
  [ ⟨"Token", "json:\"token\""⟩,
    ⟨"Changes", "json:\"changes\""⟩ ]

/-- The request body of `FileEdit`. -/
def FileEdit.body (token : GoString) (changes : Option (List (Option Change))) : JSON :=
  .obj (encodeStruct FileEdit.fields
    [ (.str (text token), token == []), (changesJSON changes, len changes == 0) ])

/-- Go `func (api *API) FileEdit(changes []*Change) (*Response, error)`. -/
def API.FileEdit (api : API) (net : Net) (changes : Option (List (Option Change))) : Call :=
  let p := API.post net (baseurl ++ "file/edit") (.ok (FileEdit.body api.Token changes)) {}
  match p.err with
  | some e => ⟨none, some e, api, p.sent⟩
  | none => ⟨some p.out, none, api, p.sent⟩

/-- The parameter struct of `DocRead`, tags as in the source. -/
def DocRead.fields : List StructField :=
  [ ⟨"Token", "json:\"token\""⟩,
    ⟨"FileID", "Json:\"file_id\""⟩ ]

/-- The request body of `DocRead`. -/
def DocRead.body (token fileID : GoString) : JSON :=
  .obj (encodeStruct DocRead.fields
    [ (.str (text token), token == []), (.str (text fileID), fileID == []) ])

/-- Go `func (api *API) DocRead(fileID string) (*Response, error)`. -/
def API.DocRead (api : API) (net : Net) (fileID : GoString) : Call :=
  let p := API.post net (baseurl ++ "doc/read") (.ok (DocRead.body api.Token fileID)) {}
  match p.err with
  | some e => ⟨none, some e, api, p.sent⟩
  | none => ⟨some p.out, none, api, p.sent⟩

/-- The parameter struct of `DocEdit`, tags as in the source. -/
def DocEdit.fields : List StructField :=
  [ ⟨"Token", "json:\"token\""⟩,
    ⟨"FileID", "Json:\"file_id\""⟩,
    ⟨"Changes", "json:\"changes\""⟩ ]

/-- The request body of `DocEdit`. -/
def DocEdit.body (token fileID : GoString) (changes : Option (List (Option Change))) : JSON :=
  .obj (encodeStruct DocEdit.fields
    [ (.str (text token), token == []), (.str (text fileID), fileID == []),
      (changesJSON changes, len changes == 0) ])

/-- Go `func (api *API) DocEdit(fileID string, changes []*Change) (*Response, error)`. -/
def API.DocEdit (api : API) (net : Net) (fileID : GoString)
    (changes : Option (List (Option Change))) : Call :=
  let p := API.post net (baseurl ++ "doc/edit") (.ok (DocEdit.body api.Token fileID changes)) {}
  match p.err with
  | some e => ⟨none, some e, api, p.sent⟩
  | none => ⟨some p.out, none, api, p.sent⟩

/-- The named field of the parameter struct of `InboxAdd`. -/
def InboxAdd.fields : List StructField :=
  [ ⟨"Token", "json:\"token\""⟩ ]

/-- The request body of `InboxAdd`: the fields of the embedded `Change`
are members of the object itself and come first, then `Token`. -/
def InboxAdd.body (token : GoString) (change : Change) : JSON :=
  .obj (change.members ++ encodeStruct InboxAdd.fields [ (.str (text token), token == []) ])

/-- Go `func (api *API) InboxAdd(change *Change) (*Response, error)`. The
method copies `*change`; the embedding takes the pointed-to value. -/
def API.InboxAdd (api : API) (net : Net) (change : Change) : Call :=
  let p := API.post net (baseurl ++ "inbox/add") (.ok (InboxAdd.body api.Token change)) {}
  match p.err with
  | some e => ⟨none, some e, api, p.sent⟩
  | none => ⟨some p.out, none, api, p.sent⟩

/-- The effect of `New`: the two return values and the requests sent. -/
structure NewResult where
  api : Option API
  err : Option Error
  sent : List Request

/-- Go `func New() (*API, error)`. -/
def New (env : Env) : NewResult :=
  let token := Getenv env "DYNALIST_TOKEN"
  if token = [] then ⟨none, some (.text "failed to get $DYNALIST_TOKEN"), []⟩
  else ⟨some { Token := token }, none, []⟩

/-! ## Rate limits -/

/-- Go `time.Duration` constants, in nanoseconds. -/
def Nanosecond : Int := 1
def Microsecond : Int := 1000 * Nanosecond
def Millisecond : Int := 1000 * Microsecond
def Second : Int := 1000 * Millisecond
def Minute : Int := 60 * Second

/-- Go `type Limit struct`. -/
structure Limit where
  Rate : Int
  Burst : Int
  deriving DecidableEq, Repr

def API.LimitFileList (_api : API) : Limit := ⟨Int.tdiv Minute 6, 10⟩
def API.LimitFileEdit (_api : API) : Limit := ⟨Int.tdiv Minute 60, 50⟩
def API.LimitDocRead (_api : API) : Limit := ⟨Int.tdiv Minute 60, 50⟩
def API.LimitDocEdit (_api : API) : Limit := ⟨Int.tdiv Minute 60, 20⟩
def API.LimitChange (_api : API) : Limit := ⟨Int.tdiv Minute 240, 500⟩
def API.LimitInboxAdd (_api : API) : Limit := ⟨Int.tdiv Minute 6, 10⟩



/-! ## Vocabulary of the statements -/

/-- A network on which every request can be built and every round trip
answers with a body that starts with the JSON value `j`. -/
def constNet (j : JSON) : Net :=
  ⟨fun _ _ => none, fun _ => .ok ⟨some (.value j)⟩⟩

/-- The request `post` hands to the HTTP client for a URL and a body. -/
def postRequest (url : String) (body : JSON) : Request :=
  ⟨"POST", url, [("Content-Type", "application/json"), ("Accept", "application/json")], body⟩

/-- The HTTP round trip fails: the request cannot be built or sending it
returns an error. -/
def roundTripFails (net : Net) (req : Request) : Prop :=
  net.checkRequest req.Method req.URL ≠ none ∨ ∃ e, net.Do req = .error e

/-- The body presence check fails: the response has no body. -/
def bodyMissing (net : Net) (req : Request) : Prop :=
  ∃ r, net.Do req = .ok r ∧ r.Body = none

/-- Response decoding fails: the body is not JSON, or a member has a value
of a kind its `Response` field cannot hold. -/
def decodingFails (net : Net) (req : Request) : Prop :=
  ∃ r, net.Do req = .ok r ∧
    (r.Body = some .malformed ∨ ∃ j, r.Body = some (.value j) ∧ (Response.decode j {}).2 ≠ none)

/-- The `Response` decoded from the body the network answers with. -/
def decodedBody (net : Net) (req : Request) : Option Response :=
  match net.Do req with
  | .ok ⟨some (.value j)⟩ => some (Response.decode j {}).1
  | _ => none

/-- The error contract of an endpoint call `c` that sends `req`: an error
exactly when a stage fails, then no `Response`; otherwise the decoded
`Response` and no error. -/
def EndpointContract (net : Net) (req : Request) (c : Call) : Prop :=
  (c.err ≠ none ↔ roundTripFails net req ∨ bodyMissing net req ∨ decodingFails net req) ∧
  (c.err ≠ none → c.res = none) ∧
  (c.err = none → c.res ≠ none ∧ c.res = decodedBody net req)

/-- The Go bool of a JSON boolean (false for any other value). -/
def boolOf : JSON → Bool
  | .bool b => b
  | _ => false

/-- The keys of a node object on the wire. -/
def Node.wireKeys : List String :=
  ["id", "content", "note", "checked", "collapsed", "parent", "children"]

/-- The keys of a file object on the wire. -/
def File.wireKeys : List String :=
  ["id", "title", "type", "permission", "collapsed", "children"]

/-- The seven keys of a response object on the wire. -/
def Response.wireKeys : List String :=
  ["_code", "_msg", "root_file_id", "files", "results", "title", "nodes"]

/-- The keys of an object fit a list of wire keys: they are pairwise
distinct, and each is a wire key or differs from every wire key even when
letter case is ignored. -/
def keysFit (wire : List String) (kvs : List (String × JSON)) : Bool :=
  decide (kvs.map Prod.fst).Nodup &&
    kvs.all (fun kv => wire.contains kv.1 || wire.all (fun w => foldName kv.1 != foldName w))

/-- A JSON string. -/
def isStr : JSON → Bool
  | .str _ => true
  | _ => false

/-- A JSON boolean. -/
def isBool : JSON → Bool
  | .bool _ => true
  | _ => false

/-- A JSON integer literal in the range of a 64-bit `int`. -/
def isInt : JSON → Bool
  | .num n => decide (-(2 ^ 63) ≤ n ∧ n < 2 ^ 63)
  | _ => false

/-- A JSON array whose elements all satisfy `ok`. -/
def isArrOf (ok : JSON → Bool) : JSON → Bool
  | .arr xs => xs.all ok
  | _ => false

/-- A member of a node object has the type the wire protocol gives its
key. -/
def Node.typed (kv : String × JSON) : Bool :=
  if kv.1 = "id" ∨ kv.1 = "content" ∨ kv.1 = "note" ∨ kv.1 = "parent" then isStr kv.2
  else if kv.1 = "checked" ∨ kv.1 = "collapsed" then isBool kv.2
  else if kv.1 = "children" then isArrOf isStr kv.2
  else true

/-- A node object of the wire protocol. -/
def Node.wellFormed : JSON → Bool
  | .obj kvs => keysFit Node.wireKeys kvs && kvs.all Node.typed
  | _ => false

/-- A member of a file object has the type the wire protocol gives its
key. -/
def File.typed (kv : String × JSON) : Bool :=
  if kv.1 = "id" ∨ kv.1 = "title" ∨ kv.1 = "type" then isStr kv.2
  else if kv.1 = "permission" then isInt kv.2
  else if kv.1 = "collapsed" then isBool kv.2
  else if kv.1 = "children" then isArrOf isStr kv.2
  else true

/-- A file object of the wire protocol. -/
def File.wellFormed : JSON → Bool
  | .obj kvs => keysFit File.wireKeys kvs && kvs.all File.typed
  | _ => false

/-- A member of a response object has the type the wire protocol gives
its key: a string at `_code`, `_msg`, `root_file_id` and `title`, an array
of booleans at `results`, an array of file objects at `files`, an array of
node objects at `nodes`. -/
def Response.typed (kv : String × JSON) : Bool :=
  if kv.1 = "_code" ∨ kv.1 = "_msg" ∨ kv.1 = "root_file_id" ∨ kv.1 = "title" then isStr kv.2
  else if kv.1 = "files" then isArrOf File.wellFormed kv.2
  else if kv.1 = "results" then isArrOf isBool kv.2
  else if kv.1 = "nodes" then isArrOf Node.wellFormed kv.2
  else true

/-- The members of a response object of the wire protocol: keys pairwise
distinct, each a wire key or no case variant of one, values typed. -/
def Response.wellFormed (kvs : List (String × JSON)) : Bool :=
  keysFit Response.wireKeys kvs && kvs.all Response.typed


/-! ## Go strings and JSON texts -/

/-- A number below 256 is the value of its byte. -/
theorem toNat_ofNat_lt (n : Nat) (h : n < 256) : (UInt8.ofNat n).toNat = n :=
  UInt8.toNat_ofNat_of_lt h

/-- A rune is a Unicode scalar value. -/
theorem char_range (c : Char) : c.toNat < 55296 ∨ (57343 < c.toNat ∧ c.toNat < 1114112) := c.valid

/-- Reading the UTF-8 bytes of a rune gives the rune back. -/
theorem runesFrom_encodeRune (c : Char) (rest : List UInt8) :
    runesFrom 0 (encodeRune c ++ rest) = c :: runesFrom 0 rest := by
  have hv := char_range c
  unfold encodeRune
  split_ifs with h1 h2 h3
  · have e0 : (UInt8.ofNat c.toNat).toNat = c.toNat := toNat_ofNat_lt _ (by omega)
    simp [runesFrom, DecodeRune, e0, h1]
  · have e0 : (UInt8.ofNat (192 + c.toNat / 64)).toNat = 192 + c.toNat / 64 :=
      toNat_ofNat_lt _ (by omega)
    have e1 : (UInt8.ofNat (128 + c.toNat % 64)).toNat = 128 + c.toNat % 64 :=
      toNat_ofNat_lt _ (by omega)
    have ha : accepts (UInt8.ofNat (192 + c.toNat / 64)) (UInt8.ofNat (128 + c.toNat % 64))
        = true := by
      simp only [accepts, acceptLo, acceptHi, e0, e1, decide_eq_true_eq]
      split_ifs <;> omega
    have c1 : ¬ (192 + c.toNat / 64 < 128) := by omega
    have c2 : ¬ (192 + c.toNat / 64 < 194 ∨ 244 < 192 + c.toNat / 64) := by omega
    have c3 : 192 + c.toNat / 64 < 224 := by omega
    rw [List.cons_append]
    simp only [List.cons_append, List.nil_append]
    simp only [runesFrom, DecodeRune, e0, e1, ha, c1, c2, c3,
      if_true, if_false, Nat.add_sub_cancel, List.cons.injEq, and_true]
    refine (congrArg Char.ofNat ?_).trans (Char.ofNat_toNat c)
    omega
  · have e0 : (UInt8.ofNat (224 + c.toNat / 4096)).toNat = 224 + c.toNat / 4096 :=
      toNat_ofNat_lt _ (by omega)
    have e1 : (UInt8.ofNat (128 + c.toNat / 64 % 64)).toNat = 128 + c.toNat / 64 % 64 :=
      toNat_ofNat_lt _ (by omega)
    have e2 : (UInt8.ofNat (128 + c.toNat % 64)).toNat = 128 + c.toNat % 64 :=
      toNat_ofNat_lt _ (by omega)
    have ha : accepts (UInt8.ofNat (224 + c.toNat / 4096))
        (UInt8.ofNat (128 + c.toNat / 64 % 64)) = true := by
      simp only [accepts, acceptLo, acceptHi, e0, e1, decide_eq_true_eq]
      split_ifs <;> omega
    have hc : isCont (UInt8.ofNat (128 + c.toNat % 64)) = true := by
      simp only [isCont, e2, decide_eq_true_eq]
      omega
    have c1 : ¬ (224 + c.toNat / 4096 < 128) := by omega
    have c2 : ¬ (224 + c.toNat / 4096 < 194 ∨ 244 < 224 + c.toNat / 4096) := by omega
    have c3 : ¬ (224 + c.toNat / 4096 < 224) := by omega
    have c4 : 224 + c.toNat / 4096 < 240 := by omega
    rw [List.cons_append]
    simp only [List.cons_append, List.nil_append]
    simp only [runesFrom, DecodeRune, e0, e1, e2, ha, hc, c1,
      c2, c3, c4, if_true, if_false, Bool.and_self, Nat.add_sub_cancel, List.cons.injEq, and_true]
    refine (congrArg Char.ofNat ?_).trans (Char.ofNat_toNat c)
    omega
  · have e0 : (UInt8.ofNat (240 + c.toNat / 262144)).toNat = 240 + c.toNat / 262144 :=
      toNat_ofNat_lt _ (by omega)
    have e1 : (UInt8.ofNat (128 + c.toNat / 4096 % 64)).toNat = 128 + c.toNat / 4096 % 64 :=
      toNat_ofNat_lt _ (by omega)
    have e2 : (UInt8.ofNat (128 + c.toNat / 64 % 64)).toNat = 128 + c.toNat / 64 % 64 :=
      toNat_ofNat_lt _ (by omega)
    have e3 : (UInt8.ofNat (128 + c.toNat % 64)).toNat = 128 + c.toNat % 64 :=
      toNat_ofNat_lt _ (by omega)
    have ha : accepts (UInt8.ofNat (240 + c.toNat / 262144))
        (UInt8.ofNat (128 + c.toNat / 4096 % 64)) = true := by
      simp only [accepts, acceptLo, acceptHi, e0, e1, decide_eq_true_eq]
      split_ifs <;> omega
    have hc2 : isCont (UInt8.ofNat (128 + c.toNat / 64 % 64)) = true := by
      simp only [isCont, e2, decide_eq_true_eq]
      omega
    have hc3 : isCont (UInt8.ofNat (128 + c.toNat % 64)) = true := by
      simp only [isCont, e3, decide_eq_true_eq]
      omega
    have c1 : ¬ (240 + c.toNat / 262144 < 128) := by omega
    have c2 : ¬ (240 + c.toNat / 262144 < 194 ∨ 244 < 240 + c.toNat / 262144) := by omega
    have c3 : ¬ (240 + c.toNat / 262144 < 224) := by omega
    have c4 : ¬ (240 + c.toNat / 262144 < 240) := by omega
    rw [List.cons_append]
    simp only [List.cons_append, List.nil_append]
    simp only [runesFrom, DecodeRune, e0, e1, e2, e3, ha, hc2,
      hc3, c1, c2, c3, c4, if_true, if_false, Bool.and_self, Nat.add_sub_cancel, List.cons.injEq,
      and_true]
    refine (congrArg Char.ofNat ?_).trans (Char.ofNat_toNat c)
    omega

/-- Reading the UTF-8 bytes of a list of runes gives the list back. -/
theorem runesFrom_utf8 (cs : List Char) : runesFrom 0 (cs.flatMap encodeRune) = cs := by
  induction cs with
  | nil => rfl
  | cons c cs ih => rw [List.flatMap_cons, runesFrom_encodeRune, ih]

/-- The JSON text of the UTF-8 encoding of a text is that text. -/
theorem text_utf8 (s : String) : text (utf8 s) = s := by
  simp only [text, utf8, runesFrom_utf8]

/-- Only the empty text has the empty Go string. -/
theorem utf8_eq_nil (s : String) : utf8 s = [] ↔ s = "" := by
  constructor
  · intro h
    have h2 := congrArg text h
    rw [text_utf8] at h2
    rw [h2]
    rfl
  · intro h
    rw [h]
    rfl

theorem jsonField_Action : jsonField ⟨"Action", "json:\"action\""⟩ = some ⟨"action", false⟩ := by
  decide
theorem jsonField_Index :
    jsonField ⟨"Index", "json:\"index,omitempty\""⟩ = some ⟨"index", true⟩ := by decide
theorem jsonField_NodeID :
    jsonField ⟨"NodeID", "json:\"node_id,omitempty\""⟩ = some ⟨"node_id", true⟩ := by decide
theorem jsonField_ParentID :
    jsonField ⟨"ParentID", "json:\"parent_id,omitempty\""⟩ = some ⟨"parent_id", true⟩ := by
  decide
theorem jsonField_Content :
    jsonField ⟨"Content", "json:\"content,omitempty\""⟩ = some ⟨"content", true⟩ := by decide
theorem jsonField_Type :
    jsonField ⟨"Type", "json:\"type,omitempty\""⟩ = some ⟨"type", true⟩ := by decide
theorem jsonField_FileID :
    jsonField ⟨"FileID", "json:\"file_id,omitempty\""⟩ = some ⟨"file_id", true⟩ := by decide
theorem jsonField_Title :
    jsonField ⟨"Title", "json:\"title,omitempty\""⟩ = some ⟨"title", true⟩ := by decide
theorem jsonField_Note :
    jsonField ⟨"Note", "json:\"note,omitempty\""⟩ = some ⟨"note", true⟩ := by decide
theorem jsonField_Checked :
    jsonField ⟨"Checked", "json:\"checked,omitempty\""⟩ = some ⟨"checked", true⟩ := by decide
theorem jsonField_Token : jsonField ⟨"Token", "json:\"token\""⟩ = some ⟨"token", false⟩ := by
  decide
theorem jsonField_Changes :
    jsonField ⟨"Changes", "json:\"changes\""⟩ = some ⟨"changes", false⟩ := by decide
/-- The tag key `Json` is not the key `json`: the field keeps its Go name. -/
theorem jsonField_FileID_param :
    jsonField ⟨"FileID", "Json:\"file_id\""⟩ = some ⟨"FileID", false⟩ := by decide
theorem jsonField_RateLimit : jsonField ⟨"RateLimit", "json:\"-\""⟩ = none := by decide
theorem jsonField_BurstLimit : jsonField ⟨"BurstLimit", "json:\"-\""⟩ = none := by decide
theorem jsonField_client : jsonField ⟨"client", "json:\"-\""⟩ = none := by decide

/-- One declared field with a JSON name contributes at most one member. -/
theorem encodeStruct_cons (f : StructField) (fs : List StructField) (v : JSON) (e : Bool)
    (vs : List (JSON × Bool)) (jf : JsonField) (h : jsonField f = some jf) :
    encodeStruct (f :: fs) ((v, e) :: vs) =
      (if jf.omitEmpty && e then [] else [(jf.name, v)]) ++ encodeStruct fs vs := by
  simp only [encodeStruct, h]
  split_ifs <;> simp

/-- A declared field without a JSON name contributes nothing. -/
theorem encodeStruct_skip (f : StructField) (fs : List StructField) (v : JSON) (e : Bool)
    (vs : List (JSON × Bool)) (h : jsonField f = none) :
    encodeStruct (f :: fs) ((v, e) :: vs) = encodeStruct fs vs := by
  simp only [encodeStruct, h]

/-- The members of a serialized `Change`, field by field. -/
theorem Change_members_eq (c : Change) :
    c.members =
      [("action", JSON.str (text c.Action))]
      ++ ((if c.Index = 0 then [] else [("index", JSON.num c.Index)])
      ++ ((if c.NodeID = [] then [] else [("node_id", JSON.str (text c.NodeID))])
      ++ ((if c.ParentID = [] then [] else [("parent_id", JSON.str (text c.ParentID))])
      ++ ((if c.Content = [] then [] else [("content", JSON.str (text c.Content))])
      ++ ((if c.Type' = [] then [] else [("type", JSON.str (text c.Type'))])
      ++ ((if c.FileID = [] then [] else [("file_id", JSON.str (text c.FileID))])
      ++ ((if c.Title = [] then [] else [("title", JSON.str (text c.Title))])
      ++ ((if c.Note = [] then [] else [("note", JSON.str (text c.Note))])
      ++ (if c.Checked = false then [] else [("checked", JSON.bool c.Checked)]))))))))) := by
  simp only [Change.members, Change.fields, Change.values]
  rw [encodeStruct_cons _ _ _ _ _ _ jsonField_Action, encodeStruct_cons _ _ _ _ _ _ jsonField_Index,
    encodeStruct_cons _ _ _ _ _ _ jsonField_NodeID, encodeStruct_cons _ _ _ _ _ _ jsonField_ParentID,
    encodeStruct_cons _ _ _ _ _ _ jsonField_Content, encodeStruct_cons _ _ _ _ _ _ jsonField_Type,
    encodeStruct_cons _ _ _ _ _ _ jsonField_FileID, encodeStruct_cons _ _ _ _ _ _ jsonField_Title,
    encodeStruct_cons _ _ _ _ _ _ jsonField_Note, encodeStruct_cons _ _ _ _ _ _ jsonField_Checked]
  simp only [Bool.true_and, Bool.false_and, beq_iff_eq, encodeStruct, List.append_nil,
    Bool.false_eq_true, if_false]

/-! ## Request bodies -/

theorem DocRead_body_eq (token fileID : GoString) :
    DocRead.body token fileID =
      .obj [("token", .str (text token)), ("FileID", .str (text fileID))] := by
  simp only [DocRead.body, DocRead.fields]
  rw [encodeStruct_cons _ _ _ _ _ _ jsonField_Token,
    encodeStruct_cons _ _ _ _ _ _ jsonField_FileID_param]
  simp [encodeStruct]

theorem DocEdit_body_eq (token fileID : GoString) (changes : Option (List (Option Change))) :
    DocEdit.body token fileID changes =
      .obj [("token", .str (text token)), ("FileID", .str (text fileID)),
        ("changes", changesJSON changes)] := by
  simp only [DocEdit.body, DocEdit.fields]
  rw [encodeStruct_cons _ _ _ _ _ _ jsonField_Token,
    encodeStruct_cons _ _ _ _ _ _ jsonField_FileID_param,
    encodeStruct_cons _ _ _ _ _ _ jsonField_Changes]
  simp [encodeStruct]

theorem FileEdit_body_eq (token : GoString) (changes : Option (List (Option Change))) :
    FileEdit.body token changes =
      .obj [("token", .str (text token)), ("changes", changesJSON changes)] := by
  simp only [FileEdit.body, FileEdit.fields]
  rw [encodeStruct_cons _ _ _ _ _ _ jsonField_Token,
    encodeStruct_cons _ _ _ _ _ _ jsonField_Changes]
  simp [encodeStruct]

theorem API_toJSON_eq (api : API) : api.toJSON = .obj [("token", .str (text api.Token))] := by
  simp only [API.toJSON, API.fields]
  rw [encodeStruct_cons _ _ _ _ _ _ jsonField_Token,
    encodeStruct_skip _ _ _ _ _ jsonField_RateLimit,
    encodeStruct_skip _ _ _ _ _ jsonField_BurstLimit,
    encodeStruct_skip _ _ _ _ _ jsonField_client]
  simp [encodeStruct]

/-- On a network that always answers, `post` sends exactly one request,
the one built from its URL and body. -/
theorem post_constNet_sent (j : JSON) (url : String) (b : JSON) (out : Response) :
    (API.post (constNet j) url (.ok b) out).sent = [postRequest url b] := by
  simp [API.post, constNet, NewRequest, Request.setHeader, postRequest]

/-- C1 (code bug): for every token, file id and change sequence, the body
`DocRead` serializes has exactly the keys `token` and `FileID`, and the body
`DocEdit` serializes exactly `token`, `FileID` and `changes`; neither has a
key `file_id`, the file id sits at key `FileID`; and this is the body of the
request `DocRead` and `DocEdit` send. -/
theorem C1_docRead_docEdit_body (api : API) (j : JSON) (f : GoString)
    (changes : Option (List (Option Change))) :
    (DocRead.body api.Token f).keys = ["token", "FileID"] ∧
    (DocEdit.body api.Token f changes).keys = ["token", "FileID", "changes"] ∧
    (DocRead.body api.Token f).get? "file_id" = none ∧
    (DocEdit.body api.Token f changes).get? "file_id" = none ∧
    (DocRead.body api.Token f).get? "FileID" = some (.str (text f)) ∧
    (DocEdit.body api.Token f changes).get? "FileID" = some (.str (text f)) ∧
    (DocRead.body (utf8 "t") (utf8 "F1")) =
      .obj [("token", .str "t"), ("FileID", .str "F1")] ∧
    (api.DocRead (constNet j) f).sent.map Request.Body = [DocRead.body api.Token f] ∧
    (api.DocEdit (constNet j) f changes).sent.map Request.Body =
      [DocEdit.body api.Token f changes] := by
  refine ⟨?_, ?_, ?_, ?_, ?_, ?_, ?_, ?_, ?_⟩
  · simp [DocRead_body_eq, JSON.keys]
  · simp [DocEdit_body_eq, JSON.keys]
  · simp [DocRead_body_eq, JSON.get?, List.find?]
  · simp [DocEdit_body_eq, JSON.get?, List.find?]
  · simp [DocRead_body_eq, JSON.get?, List.find?]
  · simp [DocEdit_body_eq, JSON.get?, List.find?]
  · simp [DocRead_body_eq, text_utf8]
  · simp only [API.DocRead, post_constNet_sent]
    split <;> simp [postRequest]
  · simp only [API.DocEdit, post_constNet_sent]
    split <;> simp [postRequest]

/-! ## Changes -/

/-- C2 (code bug): the constant `ActionInsert` is the string "action", and
the serialization of `NewChange(ActionInsert)` has "action", not "insert",
at key `action`; the other three constants carry the names of their
mutation kinds and the four values are pairwise distinct. -/
theorem C2_action_constants :
    ActionInsert = utf8 "action" ∧ ActionInsert ≠ utf8 "insert" ∧
    (NewChange ActionInsert).toJSON.get? "action" = some (.str "action") ∧
    ActionEdit = utf8 "edit" ∧ ActionMove = utf8 "move" ∧ ActionDelete = utf8 "delete" ∧
    (NewChange ActionEdit).toJSON.get? "action" = some (.str "edit") ∧
    (NewChange ActionMove).toJSON.get? "action" = some (.str "move") ∧
    (NewChange ActionDelete).toJSON.get? "action" = some (.str "delete") ∧
    [ActionInsert, ActionEdit, ActionMove, ActionDelete].Nodup := by
  refine ⟨rfl, by decide, ?_, rfl, rfl, rfl, ?_, ?_, ?_, by decide⟩ <;>
    simp [Change.toJSON, Change_members_eq, NewChange, JSON.get?, List.find?, ActionInsert,
      ActionEdit, ActionMove, ActionDelete, text_utf8]

/-- The serialization of a fresh change is the object with the single
member `action`. -/
theorem NewChange_toJSON (a : Action) :
    (NewChange a).toJSON = .obj [("action", .str (text a))] := by
  simp [Change.toJSON, Change_members_eq, NewChange]

theorem resolve_Change_action : resolve Change.fields "action" = some 0 := by decide

/-- Decoding the serialization of a fresh change gives the fresh change
whose action is the Go string of the JSON text of the action. -/
theorem decode_NewChange (a : Action) :
    Change.decode (NewChange a).toJSON {} = (NewChange (utf8 (text a)), none) := by
  rw [NewChange_toJSON]
  simp [Change.decode, decodeStruct, decodeMember, resolve_Change_action,
    Change.store, decodeString, NewChange]

/-- C3 (counterexample): for the action consisting of the single byte 0xFF,
which is not valid UTF-8, decoding the serialization of `NewChange(a)` gives
a Change whose Action is the three bytes of U+FFFD, not `a`. -/
theorem C3_invalid_utf8_action :
    Change.decode (NewChange [255]).toJSON {} = (NewChange [239, 191, 189], none) ∧
    Change.decode (NewChange [255]).toJSON {} ≠ (NewChange [255], none) ∧
    (NewChange [255]).toJSON = .obj [("action", .str (String.mk [Char.ofNat 65533]))] := by
  have h : utf8 (text [255]) = [239, 191, 189] := by decide
  have ht : text [255] = String.mk [Char.ofNat 65533] := by decide
  refine ⟨?_, ?_, ?_⟩
  · rw [decode_NewChange, h]
  · rw [decode_NewChange, h]
    decide
  · rw [NewChange_toJSON, ht]

/-- C3 (amended): for every action `a`, `NewChange(a)` has `Action = a` and
every other field unset, and its serialization is the JSON object with the
single key `action`, whose value is the text of `a`; for every action that
is valid UTF-8, that is the Go string `utf8 s` of a text `s`, decoding that
serialization into an empty `Change` succeeds and gives back `NewChange(a)`,
with Index, NodeID, ParentID, Content, Type, FileID, Title, Note and Checked
unset; for any other action the decoded Action is the Go string of the text
of `a`, in which U+FFFD stands for every invalid byte. -/
theorem C3_newChange_roundtrip (a : Action) (s : String) :
    NewChange a = ⟨a, 0, [], [], [], [], [], [], [], false⟩ ∧
    (NewChange a).toJSON = .obj [("action", .str (text a))] ∧
    (NewChange a).toJSON.keys = ["action"] ∧
    (NewChange (utf8 s)).toJSON = .obj [("action", .str s)] ∧
    Change.decode (NewChange (utf8 s)).toJSON {} =
      (⟨utf8 s, 0, [], [], [], [], [], [], [], false⟩, none) ∧
    Change.decode (NewChange (utf8 s)).toJSON {} = (NewChange (utf8 s), none) ∧
    Change.decode (NewChange a).toJSON {} = (NewChange (utf8 (text a)), none) := by
  refine ⟨rfl, NewChange_toJSON a, ?_, ?_, ?_, ?_, decode_NewChange a⟩
  · simp [NewChange_toJSON, JSON.keys]
  · rw [NewChange_toJSON, text_utf8]
  · rw [decode_NewChange, text_utf8]
    rfl
  · rw [decode_NewChange, text_utf8]

/-- Membership in the contribution of an optional field. -/
theorem mem_optional (p : Prop) [Decidable p] (k x : String) :
    k ∈ (if p then ([] : List String) else [x]) ↔ ¬ p ∧ k = x := by
  split_ifs with h <;> simp [h]

/-- The keys of a serialized `Change`: `action`, then the key of every
other field whose value is not the empty value, in declaration order. -/
theorem Change_keys (c : Change) :
    c.toJSON.keys =
      ["action"]
      ++ ((if c.Index = 0 then [] else ["index"])
      ++ ((if c.NodeID = [] then [] else ["node_id"])
      ++ ((if c.ParentID = [] then [] else ["parent_id"])
      ++ ((if c.Content = [] then [] else ["content"])
      ++ ((if c.Type' = [] then [] else ["type"])
      ++ ((if c.FileID = [] then [] else ["file_id"])
      ++ ((if c.Title = [] then [] else ["title"])
      ++ ((if c.Note = [] then [] else ["note"])
      ++ (if c.Checked = false then [] else ["checked"]))))))))) := by
  simp only [Change.toJSON, JSON.keys, Change_members_eq, List.map_append,
    apply_ite (List.map Prod.fst), List.map_cons, List.map_nil]

/-- A key belongs to a serialized `Change` exactly when it is `action` or
the key of a field whose value is not the empty value. -/
theorem Change_mem_keys (c : Change) (k : String) :
    k ∈ c.toJSON.keys ↔
      k = "action" ∨ (¬ c.Index = 0 ∧ k = "index") ∨ (¬ c.NodeID = [] ∧ k = "node_id") ∨
      (¬ c.ParentID = [] ∧ k = "parent_id") ∨ (¬ c.Content = [] ∧ k = "content") ∨
      (¬ c.Type' = [] ∧ k = "type") ∨ (¬ c.FileID = [] ∧ k = "file_id") ∨
      (¬ c.Title = [] ∧ k = "title") ∨ (¬ c.Note = [] ∧ k = "note") ∨
      (¬ c.Checked = false ∧ k = "checked") := by
  rw [Change_keys]
  simp only [List.mem_append, mem_optional, List.mem_singleton]

/-- The member `index` of a serialized change: present exactly when the
index is not zero. -/
theorem Change_get_index (c : Change) :
    c.toJSON.get? "index" = if c.Index = 0 then none else some (.num c.Index) := by
  simp only [Change.toJSON, JSON.get?, Change_members_eq]
  split_ifs with h <;> simp [List.find?, h]

/-- C4 (counterexample): the move change with NodeID "n1", ParentID "p1"
and Index 0 serializes without the key `index`; and giving Index the value 0
or Checked the value false explicitly yields the same serialization as
never supplying the field. -/
theorem C4_index_zero_omitted :
    (Change.toJSON
      { Action := ActionMove, NodeID := utf8 "n1", ParentID := utf8 "p1", Index := 0 }).keys
      = ["action", "node_id", "parent_id"] ∧
    (Change.toJSON
      { Action := ActionMove, NodeID := utf8 "n1", ParentID := utf8 "p1", Index := 0 }).get?
      "index" = none ∧
    ¬ (Change.toJSON { NewChange ActionMove with Index := 0 } ≠
        Change.toJSON (NewChange ActionMove)) ∧
    ¬ (Change.toJSON { NewChange ActionEdit with Checked := false } ≠
        Change.toJSON (NewChange ActionEdit)) := by
  refine ⟨?_, ?_, ?_, ?_⟩
  · simp [Change_keys, utf8_eq_nil]
  · simp [Change_get_index]
  · simp [NewChange]
  · simp [NewChange]

/-- C4 (amended): for every change and every index value `i` other than 0,
the serialization of the change with `Index = i` has the key `index` with
value `i`; with `Index = 0` the key `index` is absent, and with
`Checked = false` the key `checked` is absent, so a field given its empty
value serializes as a field never supplied. -/
theorem C4_index_serialized (c : Change) (i : Int) (h : i ≠ 0) :
    (Change.toJSON { c with Index := i }).get? "index" = some (.num i) ∧
    "index" ∈ (Change.toJSON { c with Index := i }).keys ∧
    (Change.toJSON { c with Index := 0 }).get? "index" = none ∧
    "index" ∉ (Change.toJSON { c with Index := 0 }).keys ∧
    "checked" ∉ (Change.toJSON { c with Checked := false }).keys := by
  refine ⟨?_, ?_, ?_, ?_, ?_⟩
  · simp [Change_get_index, h]
  · simp [Change_mem_keys, h]
  · simp [Change_get_index]
  · simp [Change_mem_keys]
  · simp [Change_mem_keys]

theorem C4_index_serialized_witness :
    (2 : Int) ≠ 0 ∧
    (Change.toJSON
      { Action := ActionMove, NodeID := utf8 "n1", ParentID := utf8 "p1", Index := 2 }).get?
      "index" = some (.num 2) :=
  ⟨by decide,
   (C4_index_serialized { Action := ActionMove, NodeID := utf8 "n1", ParentID := utf8 "p1" } 2
      (by decide)).1⟩

/-- C5 (counterexample): the change the `FileEdit` test builds, with
FileID "F1" and Title "new title", serializes with four keys: besides
`action`, `file_id` and `title` it has the change field `type` with value
"folder". -/
theorem C5_folder_change_has_type :
    (Change.toJSON
      { NewChange ActionEdit with
        Type' := TypeFolder, FileID := utf8 "F1", Title := utf8 "new title" }).keys
      = ["action", "type", "file_id", "title"] ∧
    (Change.toJSON
      { NewChange ActionEdit with
        Type' := TypeFolder, FileID := utf8 "F1", Title := utf8 "new title" }).get?
      "type" = some (.str "folder") ∧
    (Change.toJSON
      { NewChange ActionEdit with
        Type' := TypeFolder, FileID := utf8 "F1", Title := utf8 "new title" }).keys
      ≠ ["action", "file_id", "title"] := by
  refine ⟨?_, ?_, ?_⟩
  · simp [Change_keys, NewChange, TypeFolder, utf8_eq_nil]
  · simp [Change.toJSON, Change_members_eq, JSON.get?, List.find?, NewChange, TypeFolder,
      ActionEdit, utf8_eq_nil, text_utf8]
  · simp [Change_keys, NewChange, TypeFolder, utf8_eq_nil]

/-- C5 (amended): the change the `FileEdit` test builds (NewChange(ActionEdit),
Type = TypeFolder, FileID = "F1", Title = "new title") serializes to the
object with exactly action "edit", type "folder", file_id "F1" and title
"new title"; in general the keys of a serialized change are `action`
followed by the key of every other field whose value is not the empty value
(0, "" or false), in declaration order. -/
theorem C5_change_keys (c : Change) :
    Change.toJSON
      { NewChange ActionEdit with
        Type' := TypeFolder, FileID := utf8 "F1", Title := utf8 "new title" }
      = .obj [("action", .str "edit"), ("type", .str "folder"), ("file_id", .str "F1"),
          ("title", .str "new title")] ∧
    c.toJSON.keys =
      ["action"]
      ++ ((if c.Index = 0 then [] else ["index"])
      ++ ((if c.NodeID = [] then [] else ["node_id"])
      ++ ((if c.ParentID = [] then [] else ["parent_id"])
      ++ ((if c.Content = [] then [] else ["content"])
      ++ ((if c.Type' = [] then [] else ["type"])
      ++ ((if c.FileID = [] then [] else ["file_id"])
      ++ ((if c.Title = [] then [] else ["title"])
      ++ ((if c.Note = [] then [] else ["note"])
      ++ (if c.Checked = false then [] else ["checked"]))))))))) := by
  refine ⟨?_, Change_keys c⟩
  simp [Change.toJSON, Change_members_eq, NewChange, TypeFolder, ActionEdit, utf8_eq_nil,
    text_utf8]


/-! ## Rate limits -/

/-- C9: the six rate-limit lookups return, for every client value, the
same constant pair: FileList and InboxAdd 10 s and 10, FileEdit and DocRead
1 s and 50, DocEdit 1 s and 20, Change 250 ms and 500 (rates in
nanoseconds). -/
theorem C9_limits (api api' : API) :
    api.LimitFileList = ⟨10000000000, 10⟩ ∧ api.LimitInboxAdd = ⟨10000000000, 10⟩ ∧
    api.LimitFileEdit = ⟨1000000000, 50⟩ ∧ api.LimitDocRead = ⟨1000000000, 50⟩ ∧
    api.LimitDocEdit = ⟨1000000000, 20⟩ ∧ api.LimitChange = ⟨250000000, 500⟩ ∧
    api.LimitFileList.Rate = 10 * Second ∧ api.LimitDocEdit.Rate = Second ∧
    api.LimitChange.Rate = 250 * Millisecond ∧ 4 * api.LimitChange.Rate = Second ∧
    api.LimitFileList = api'.LimitFileList ∧ api.LimitFileEdit = api'.LimitFileEdit ∧
    api.LimitDocRead = api'.LimitDocRead ∧ api.LimitDocEdit = api'.LimitDocEdit ∧
    api.LimitChange = api'.LimitChange ∧ api.LimitInboxAdd = api'.LimitInboxAdd := by
  refine ⟨?_, ?_, ?_, ?_, ?_, ?_, ?_, ?_, ?_, ?_, rfl, rfl, rfl, rfl, rfl, rfl⟩ <;>
    simp only [API.LimitFileList, API.LimitInboxAdd, API.LimitFileEdit, API.LimitDocRead,
      API.LimitDocEdit, API.LimitChange] <;> decide

/-! ## Construction -/

/-- C10: `New` returns an error exactly when `DYNALIST_TOKEN` is unset or
empty, and then returns no client; it never sends a request; otherwise it
returns, with no error, a client whose Token is the value of
`DYNALIST_TOKEN`; and after each of the five endpoint methods the Token of
the receiver is what it was before. -/
theorem C10_new (env : Env) (api : API) (net : Net) (fileID : GoString)
    (changes : Option (List (Option Change))) (change : Change) :
    ((New env).err ≠ none ↔
      env "DYNALIST_TOKEN" = none ∨ env "DYNALIST_TOKEN" = some []) ∧
    ((New env).err ≠ none → (New env).api = none) ∧
    (New env).sent = [] ∧
    ((New env).err = none →
      ∃ t, env "DYNALIST_TOKEN" = some t ∧ t ≠ [] ∧ (New env).api = some { Token := t }) ∧
    (api.FileList net).api.Token = api.Token ∧
    (api.FileEdit net changes).api.Token = api.Token ∧
    (api.DocRead net fileID).api.Token = api.Token ∧
    (api.DocEdit net fileID changes).api.Token = api.Token ∧
    (api.InboxAdd net change).api.Token = api.Token := by
  refine ⟨?_, ?_, ?_, ?_, ?_, ?_, ?_, ?_, ?_⟩
  · unfold New Getenv
    cases h : env "DYNALIST_TOKEN" with
    | none => simp
    | some t => by_cases ht : t = [] <;> simp [ht]
  · unfold New Getenv
    cases h : env "DYNALIST_TOKEN" with
    | none => simp
    | some t => by_cases ht : t = [] <;> simp [ht]
  · simp only [New]
    split_ifs <;> rfl
  · unfold New Getenv
    cases h : env "DYNALIST_TOKEN" with
    | none => simp
    | some t => by_cases ht : t = [] <;> simp [ht]
  · simp only [API.FileList]
    split <;> rfl
  · simp only [API.FileEdit]
    split <;> rfl
  · simp only [API.DocRead]
    split <;> rfl
  · simp only [API.DocEdit]
    split <;> rfl
  · simp only [API.InboxAdd]
    split <;> rfl

/-! ## Error contract of the endpoint methods -/

/-- When the request can be built, `post` sends the request built from its
URL and body with the two JSON headers. -/
theorem post_request_eq (url : String) (b : JSON) :
    ((⟨"POST", url, [], b⟩ : Request).setHeader "Content-Type" "application/json").setHeader
      "Accept" "application/json" = postRequest url b := by
  simp [Request.setHeader, postRequest]

/-- The outcome of `post` stage by stage. -/
theorem post_contract (net : Net) (url : String) (b : JSON) :
    ((API.post net url (.ok b) {}).err ≠ none ↔
      roundTripFails net (postRequest url b) ∨ bodyMissing net (postRequest url b) ∨
        decodingFails net (postRequest url b)) ∧
    ((API.post net url (.ok b) {}).err = none →
      some (API.post net url (.ok b) {}).out = decodedBody net (postRequest url b)) := by
  simp only [API.post, NewRequest, roundTripFails, bodyMissing, decodingFails, decodedBody]
  cases hc : net.checkRequest "POST" url with
  | some e => simp [postRequest, hc]
  | none =>
    simp only [post_request_eq]
    cases hd : net.Do (postRequest url b) with
    | error e => simp [postRequest, hc]
    | ok r =>
      obtain ⟨body⟩ := r
      cases body with
      | none => simp [postRequest, hc]
      | some st =>
        cases st with
        | malformed => simp [postRequest, hc]
        | value j => simp [postRequest, hc]

/-- An endpoint method that returns as the five methods do satisfies the
error contract. -/
theorem endpoint_contract (api : API) (net : Net) (url : String) (b : JSON) :
    EndpointContract net (postRequest url b)
      (match (API.post net url (.ok b) {}).err with
       | some e => ⟨none, some e, api, (API.post net url (.ok b) {}).sent⟩
       | none => ⟨some (API.post net url (.ok b) {}).out, none, api,
           (API.post net url (.ok b) {}).sent⟩) := by
  have h := post_contract net url b
  unfold EndpointContract
  cases he : (API.post net url (.ok b) {}).err with
  | none =>
    rw [he] at h
    refine ⟨?_, ?_, ?_⟩
    · simpa using h.1
    · simp
    · intro _
      exact ⟨by simp, h.2 rfl⟩
  | some e =>
    rw [he] at h
    refine ⟨?_, ?_, ?_⟩
    · simpa using h.1
    · simp
    · simp

theorem resolve_Response_code : resolve Response.fields "_code" = some 0 := by decide
theorem resolve_Response_msg : resolve Response.fields "_msg" = some 1 := by decide
/-- The key `results` names the field `Results` only up to case: the tag
of the field is malformed and gives it no JSON name of its own. -/
theorem resolve_Response_results : resolve Response.fields "results" = some 4 := by decide
/-- C6: for each of the five endpoint methods and every network outcome:
the method returns an error exactly when the HTTP round trip (building the
request or sending it), the body presence check or response decoding fails
(encoding these request bodies cannot fail; if encoding fails, `post`
returns that error before any request), and then it returns no Response;
otherwise it returns, with no error, the Response decoded from the body.
A body whose `_code` is any string `code` decodes without error. -/
theorem C6_endpoint_errors (api : API) (net : Net) (fileID : GoString)
    (changes : Option (List (Option Change))) (change : Change) (code msg : String) :
    EndpointContract net (postRequest (baseurl ++ "file/list") api.toJSON) (api.FileList net) ∧
    EndpointContract net (postRequest (baseurl ++ "file/edit") (FileEdit.body api.Token changes))
      (api.FileEdit net changes) ∧
    EndpointContract net (postRequest (baseurl ++ "doc/read") (DocRead.body api.Token fileID))
      (api.DocRead net fileID) ∧
    EndpointContract net
      (postRequest (baseurl ++ "doc/edit") (DocEdit.body api.Token fileID changes))
      (api.DocEdit net fileID changes) ∧
    EndpointContract net (postRequest (baseurl ++ "inbox/add") (InboxAdd.body api.Token change))
      (api.InboxAdd net change) ∧
    (∀ (e : Error) (url : String) (out : Response),
      (API.post net url (.error e) out).err = some e ∧
      (API.post net url (.error e) out).sent = []) ∧
    Response.decode (.obj [("_code", .str code), ("_msg", .str msg)]) {} =
      ({ Code := utf8 code, Msg := utf8 msg }, none) ∧
    (api.FileList (constNet (.obj [("_code", .str code), ("_msg", .str msg)]))).err = none ∧
    (api.FileList (constNet (.obj [("_code", .str code), ("_msg", .str msg)]))).res =
      some { Code := utf8 code, Msg := utf8 msg } := by
  have hdec : Response.decode (.obj [("_code", .str code), ("_msg", .str msg)]) {} =
      ({ Code := utf8 code, Msg := utf8 msg }, none) := by
    simp [Response.decode, decodeStruct, decodeMember, resolve_Response_code,
      resolve_Response_msg, Response.store, decodeString]
  refine ⟨endpoint_contract api net _ _, endpoint_contract api net _ _,
    endpoint_contract api net _ _, endpoint_contract api net _ _,
    endpoint_contract api net _ _, ?_, hdec, ?_, ?_⟩
  · intro e url out
    exact ⟨rfl, rfl⟩
  · simp [API.FileList, API.post, constNet, NewRequest, hdec]
  · simp [API.FileList, API.post, constNet, NewRequest, hdec]

/-! ## Decoding arrays -/

theorem firstError_none (es : List (Option Error)) (h : ∀ e ∈ es, e = none) :
    firstError es = none := by
  induction es with
  | nil => rfl
  | cons e es ih =>
    have he : e = none := h e (List.mem_cons_self _ _)
    subst he
    exact ih (fun x hx => h x (List.mem_cons_of_mem _ hx))

/-- With an empty backing array every element is decoded into a zero
element. -/
theorem decodeElems_nil {α : Type} (elem : JSON → α → α × Option Error) (zero : α)
    (xs : List JSON) : decodeElems elem zero xs [] = xs.map (fun x => elem x zero) := by
  induction xs with
  | nil => rfl
  | cons x xs ih => simp [decodeElems, ih]

/-- An array decoded into a slice that was never written to: when every
element decodes from zero to `f x` without error, the slice holds exactly
those elements and nothing beyond. -/
theorem decodeSlice_fresh {α : Type} (elem : JSON → α → α × Option Error) (zero : α)
    (f : JSON → α) (xs : List JSON) (h : ∀ x ∈ xs, elem x zero = (f x, none)) :
    decodeSlice elem zero (.arr xs) {} = (⟨some (xs.map f), []⟩, none) := by
  cases xs with
  | nil => rfl
  | cons x xs =>
    have hm : (x :: xs).map (fun y => elem y zero) = (x :: xs).map (fun y => (f y, none)) :=
      List.map_congr_left h
    simp only [decodeSlice, Option.getD_none, List.append_nil, decodeElems_nil, hm,
      List.map_map, List.drop_nil]
    refine Prod.ext ?_ ?_
    · simp [Function.comp_def]
    · apply firstError_none
      intro e he
      simp only [List.mem_map, Function.comp_apply] at he
      obtain ⟨_, _, rfl⟩ := he
      rfl

/-- An array of booleans decodes into the slice of those booleans. -/
theorem decodeSlice_bools (bs : List Bool) :
    decodeSlice decodeBool false (.arr (bs.map JSON.bool)) {} = (⟨some bs, []⟩, none) := by
  have h := decodeSlice_fresh decodeBool false boolOf (bs.map JSON.bool) (by
    intro x hx
    simp only [List.mem_map] at hx
    obtain ⟨b, _, rfl⟩ := hx
    rfl)
  rw [h, List.map_map]
  have : (boolOf ∘ JSON.bool) = id := rfl
  rw [this, List.map_id]

/-! ## Results of the batch edits -/

/-- A body with a code, a message and a `results` array decodes into
exactly them. -/
theorem decode_results (code msg : String) (bs : List Bool) :
    Response.decode
      (.obj [("_code", .str code), ("_msg", .str msg), ("results", .arr (bs.map JSON.bool))]) {} =
      ({ Code := utf8 code, Msg := utf8 msg, Results := ⟨some bs, []⟩ }, none) := by
  have h := decodeSlice_bools bs
  simp [Response.decode, decodeStruct, decodeMember, resolve_Response_code,
    resolve_Response_msg, resolve_Response_results, Response.store, decodeString, h]

/-- The outcome of an endpoint call on a network that always answers with
the body `j`. -/
theorem post_constNet (j : JSON) (url : String) (b : JSON) :
    (API.post (constNet j) url (.ok b) {}).out = (Response.decode j {}).1 ∧
    (API.post (constNet j) url (.ok b) {}).err = (Response.decode j {}).2 := by
  simp [API.post, constNet, NewRequest]

/-- What `FileEdit` returns on a network that always answers with the
body `j`: it depends on the body alone. -/
theorem FileEdit_constNet (api : API) (j : JSON) (changes : Option (List (Option Change))) :
    (api.FileEdit (constNet j) changes).err = (Response.decode j {}).2 ∧
    (api.FileEdit (constNet j) changes).res =
      (match (Response.decode j {}).2 with
       | some _ => none
       | none => some (Response.decode j {}).1) := by
  simp only [API.FileEdit, post_constNet]
  cases (Response.decode j {}).2 <;> exact ⟨rfl, rfl⟩

/-- What `DocEdit` returns on a network that always answers with the body
`j`: it depends on the body alone. -/
theorem DocEdit_constNet (api : API) (j : JSON) (fileID : GoString)
    (changes : Option (List (Option Change))) :
    (api.DocEdit (constNet j) fileID changes).err = (Response.decode j {}).2 ∧
    (api.DocEdit (constNet j) fileID changes).res =
      (match (Response.decode j {}).2 with
       | some _ => none
       | none => some (Response.decode j {}).1) := by
  simp only [API.DocEdit, post_constNet]
  cases (Response.decode j {}).2 <;> exact ⟨rfl, rfl⟩

/-- C8 (counterexample): `FileEdit` and `DocEdit` called with an empty
change sequence on a network that answers
`{"_code":"Ok","_msg":"","results":[true]}` succeed and return a Response
whose Results has one element, not zero. -/
theorem C8_results_length_mismatch :
    (API.FileEdit { Token := utf8 "t" }
      (constNet (.obj [("_code", .str "Ok"), ("_msg", .str ""), ("results", .arr [.bool true])]))
      (some [])).err = none ∧
    (API.FileEdit { Token := utf8 "t" }
      (constNet (.obj [("_code", .str "Ok"), ("_msg", .str ""), ("results", .arr [.bool true])]))
      (some [])).res = some { Code := CodeOK, Results := ⟨some [true], []⟩ } ∧
    (API.DocEdit { Token := utf8 "t" }
      (constNet (.obj [("_code", .str "Ok"), ("_msg", .str ""), ("results", .arr [.bool true])]))
      (utf8 "F1") (some [])).res = some { Code := CodeOK, Results := ⟨some [true], []⟩ } ∧
    Slice.len (⟨some [true], []⟩ : Slice Bool) ≠ len (some ([] : List (Option Change))) := by
  have h := decode_results "Ok" "" [true]
  simp only [List.map_cons, List.map_nil] at h
  have h0 : utf8 "" = [] := rfl
  rw [h0] at h
  refine ⟨?_, ?_, ?_, by decide⟩
  · rw [(FileEdit_constNet _ _ _).1, h]
  · rw [(FileEdit_constNet _ _ _).2, h]
    rfl
  · rw [(DocEdit_constNet _ _ _ _).2, h]
    rfl

/-- C8 (amended): for every change sequence submitted to `FileEdit` or
`DocEdit`, the returned Response is decoded from the body of the answer
alone: the same body gives the same Response whatever change sequence was
submitted, and when the body is the object with a string at `_code`, a
string at `_msg` and the array of booleans `bs` at `results`, the call
succeeds and Results is `bs` itself, with the length and order it has in
the body. -/
theorem C8_results_mirror_body (api : API) (fileID : GoString)
    (changes changes' : Option (List (Option Change))) (j : JSON) (code msg : String)
    (bs : List Bool) :
    (api.FileEdit (constNet j) changes).res = (api.FileEdit (constNet j) changes').res ∧
    (api.DocEdit (constNet j) fileID changes).res =
      (api.DocEdit (constNet j) fileID changes').res ∧
    (api.FileEdit (constNet (.obj [("_code", .str code), ("_msg", .str msg),
      ("results", .arr (bs.map JSON.bool))])) changes).err = none ∧
    (api.FileEdit (constNet (.obj [("_code", .str code), ("_msg", .str msg),
      ("results", .arr (bs.map JSON.bool))])) changes).res =
      some { Code := utf8 code, Msg := utf8 msg, Results := ⟨some bs, []⟩ } ∧
    (api.DocEdit (constNet (.obj [("_code", .str code), ("_msg", .str msg),
      ("results", .arr (bs.map JSON.bool))])) fileID changes).err = none ∧
    (api.DocEdit (constNet (.obj [("_code", .str code), ("_msg", .str msg),
      ("results", .arr (bs.map JSON.bool))])) fileID changes).res =
      some { Code := utf8 code, Msg := utf8 msg, Results := ⟨some bs, []⟩ } ∧
    Slice.len (⟨some bs, []⟩ : Slice Bool) = bs.length := by
  have h := decode_results code msg bs
  refine ⟨?_, ?_, ?_, ?_, ?_, ?_, rfl⟩
  · rw [(FileEdit_constNet _ _ _).2, (FileEdit_constNet _ _ _).2]
  · rw [(DocEdit_constNet _ _ _ _).2, (DocEdit_constNet _ _ _ _).2]
  · rw [(FileEdit_constNet _ _ _).1, h]
  · rw [(FileEdit_constNet _ _ _).2, h]
  · rw [(DocEdit_constNet _ _ _ _).1, h]
  · rw [(DocEdit_constNet _ _ _ _).2, h]

/-! ## Reading an object by wire key -/

end Dynalist
